import Mathlib

/-
  Verification of the CapturePoint mobile synchronization engine
  (src/server_files/mobile_api.py) against its natural-language
  specification.

  The embedding is shallow: database tables become lists of records,
  SQLAlchemy `filter_by(...).first()` becomes `List.find?`, in-place row
  mutation becomes replacement of the first matching list element, and
  UTC instants are modelled as integers (`Instant`).  The per-request
  transaction is modelled by a `Session` carrying a committed and a
  pending database; `rollback` discards the pending state.
-/

namespace CapturePoint

/-- UTC instants (e.g. microseconds since the Unix epoch), totally ordered.
`0` is the epoch (`datetime.utcfromtimestamp(0)`). -/
abbrev Instant := Int

/-- The value a client may supply where the server expects an ISO-8601
timestamp string, restricted to the inputs on which the real
`parse_iso_datetime` RETURNS (normally): missing/None, a non-string JSON
value, a string `dateutil.parser.isoparse` rejects (raising the
ValueError/TypeError the function catches), or a string that parses to
instant `t` (already normalized to UTC).  There is one further input
class on which the real function does not return but RAISES — a string
isoparse accepts whose `astimezone(timezone.utc)` overflows the supported
datetime range, e.g. "0001-01-01T00:00:00+01:00"; that class is
represented separately by `TsInput.overflowString` below, so theorems
quantified over `TsValue` speak only about the non-raising inputs. -/
inductive TsValue where
  | absent
  | notString
  | invalidString (s : String)
  | validString (s : String) (t : Instant)
deriving DecidableEq, Repr

/-- `parse_iso_datetime` (mobile_api.py lines 286-302) on its non-raising
inputs: returns `none` for missing, non-string, or unparseable input, and
the UTC instant otherwise.  The raising path of the source — an
`OverflowError` from `dt.astimezone(timezone.utc)` at line 295, which
`except (ValueError, TypeError)` at line 301 does NOT catch — is modelled
by `parse_iso_datetime_run` below. -/
def parse_iso_datetime : TsValue → Option Instant
  | .absent => none
  | .notString => none
  | .invalidString _ => none
  | .validString _ t => some t

/-- JSON attribute maps, modelled as association lists from key to value. -/
abbrev AttrMap := List (String × String)

/-- `'timezone' in attrs`. -/
def attrHasTimezone (m : AttrMap) : Bool :=
  m.any (fun kv => kv.1 == "timezone")

/-- `if 'timezone' not in attrs: attrs['timezone'] = tz`
(mobile_api.py lines 93-95 for features, 158-160 for points). -/
def storeTimezone (m : AttrMap) (tz : String) : AttrMap :=
  if attrHasTimezone m then m else m ++ [("timezone", tz)]

/-- `attrs.get("timezone", "UTC") if attrs else "UTC"` (lines 259, 279):
an empty map and a map without the key both yield the default. -/
def attrTimezoneD (m : AttrMap) : String :=
  match m.find? (fun kv => kv.1 == "timezone") with
  | some kv => kv.2
  | none => "UTC"

/-- Python truthiness of an optional string: `None` and `""` are falsy
(`if not client_id: continue`). -/
def truthyStr : Option String → Option String
  | none => none
  | some s => if s.isEmpty then none else some s

/-- A row of the `collected_features` table (collected_features_model.py). -/
structure CollectedFeature where
  id : Nat
  draw_layer : Option String
  client_id : String
  type : Option String
  name : Option String
  attributes : AttrMap
  project_id : Nat
  is_active : Bool
  created_by : Nat
  created_at : Instant
  updated_by : Nat
  updated_at : Instant
deriving DecidableEq, Repr

/-- A row of the `collected_points` table (collected_points_model.py);
`coords` is the stored 2D geometry as a (longitude, latitude) pair. -/
structure CollectedPoint where
  id : Nat
  client_id : String
  fcode : String
  coords : Int × Int
  attributes : AttrMap
  project_id : Nat
  feature_id : Nat
  is_active : Bool
  created_by : Nat
  created_at : Instant
  updated_by : Nat
  updated_at : Instant
deriving DecidableEq, Repr

/-- The transactional store: the project table (ids only), both collected
tables, and the autoincrement counters that `db.session.flush()` draws
fresh primary keys from. -/
structure DB where
  projects : List Nat
  features : List CollectedFeature
  points : List CollectedPoint
  next_feature_id : Nat
  next_point_id : Nat
deriving DecidableEq, Repr

/-- One entry of a feature's `points` sequence in the request body.
`none` in an `Option` field models an absent key; `coords := none` also
covers a non-list value (both fall back to `[0,0]`), and
`attributes := []` covers the `get('attributes', {}) or {}` collapse of
absent/null/empty to the empty map. -/
structure PointPayload where
  client_id : Option String
  fcode : Option String
  coords : Option (List Int)
  attributes : AttrMap
  created_at : TsValue
deriving DecidableEq, Repr

/-- The `data` object of a non-deleted feature-change entry. -/
structure FeatureData where
  name : Option String
  draw_layer : Option String
  type : Option String
  attributes : AttrMap
  points : List PointPayload
  created_at : TsValue
deriving DecidableEq, Repr

/-- One feature-change object of the request's `features` sequence.
`data := none` models a missing or falsy (empty) `data` object. -/
structure FeatureChange where
  clientId : Option String
  deleted : Bool
  lastModified : TsValue
  data : Option FeatureData
deriving DecidableEq, Repr

/-- The request body of `POST /<project_id>/sync`, after the upstream
`isinstance(data, dict)` shape check. -/
structure SyncRequest where
  features : List FeatureChange
  lastSyncTimestamp : TsValue
  timezone : String
deriving DecidableEq, Repr

/-- Per-request ambient data: the URL's project id, the JWT identity, and
the single `datetime.utcnow()` read at line 55. -/
structure SyncEnv where
  project_id : Nat
  current_user_id : Nat
  server_time : Instant
deriving DecidableEq, Repr

/-- `CollectedFeatures.query.filter_by(client_id=..., project_id=...)`. -/
def featureMatch (cid : String) (pid : Nat) (f : CollectedFeature) : Bool :=
  f.client_id == cid && f.project_id == pid

/-- `CollectedPoints.query.filter_by(client_id=..., feature_id=...)`. -/
def pointMatch (pcid : String) (fid : Nat) (q : CollectedPoint) : Bool :=
  q.client_id == pcid && q.feature_id == fid

/-- Mutate the first element satisfying `p` in place (the ORM row returned
by `.first()` is updated; all other rows keep their positions). -/
def updateFirst (p : α → Bool) (g : α → α) : List α → List α
  | [] => []
  | x :: xs => if p x then g x :: xs else x :: updateFirst p g xs

/-- `coords = point_data.get('coords', [0, 0])` followed by
`if not isinstance(coords, list) or len(coords) < 2: coords = [0, 0]`
and `Point(coords[0], coords[1])` (lines 150-155). -/
def parseCoords : Option (List Int) → Int × Int
  | some (x :: y :: _) => (x, y)
  | _ => (0, 0)

/-- In-place update of an existing point row (mobile_api.py lines 162-168):
coords, fcode (payload value or the row's own), attributes and the audit
pair are overwritten; `is_active`, ids and creation audit are untouched. -/
def updatePointRow (env : SyncEnv) (coords : Int × Int) (pd : PointPayload)
    (point_attributes : AttrMap) (q : CollectedPoint) : CollectedPoint :=
  { q with
    coords := coords,
    fcode := pd.fcode.getD q.fcode,
    attributes := point_attributes,
    updated_at := env.server_time,
    updated_by := env.current_user_id }

/-- A freshly inserted point row (mobile_api.py lines 171-184). -/
def newPointRow (env : SyncEnv) (fid : Nat) (rowid : Nat) (pcid : String)
    (coords : Int × Int) (pd : PointPayload) (point_attributes : AttrMap) :
    CollectedPoint :=
  { id := rowid,
    client_id := pcid,
    fcode := pd.fcode.getD "",
    coords := coords,
    attributes := point_attributes,
    project_id := env.project_id,
    feature_id := fid,
    created_by := env.current_user_id,
    created_at := (parse_iso_datetime pd.created_at).getD env.server_time,
    updated_by := env.current_user_id,
    updated_at := env.server_time,
    is_active := true }

/-- Processing of one entry of `points_data` for feature row id `fid`
(mobile_api.py lines 139-184): skip falsy `client_id`; otherwise upsert on
`(client_id, feature_id)` — update the existing row in place, or insert a
fresh active row. -/
def processPoint (env : SyncEnv) (tz : String) (fid : Nat) (db : DB)
    (pd : PointPayload) : DB :=
  match truthyStr pd.client_id with
  | none => db
  | some pcid =>
    let coords := parseCoords pd.coords
    let point_attributes := storeTimezone pd.attributes tz
    match db.points.find? (pointMatch pcid fid) with
    | some _ =>
      let ps := updateFirst (pointMatch pcid fid)
        (updatePointRow env coords pd point_attributes) db.points
      { db with points := ps }
    | none =>
      { db with
        points := db.points ++
          [newPointRow env fid db.next_point_id pcid coords pd point_attributes],
        next_point_id := db.next_point_id + 1 }

/-- The loop state of the batch: the pending database and the
`processed_feature_ids` / `failed_feature_ids` accumulators. -/
structure BatchAcc where
  db : DB
  processed : List String
  failed : List String
deriving DecidableEq, Repr

/-- Soft-delete of a feature row (mobile_api.py lines 80-82). -/
def deactivateRow (env : SyncEnv) (f : CollectedFeature) : CollectedFeature :=
  { f with
    is_active := false,
    updated_at := env.server_time,
    updated_by := env.current_user_id }

/-- Overwrite of an existing feature row from a strictly newer payload
(mobile_api.py lines 109-114): each field falls back to the row's current
value when absent from the payload. -/
def overwriteRow (env : SyncEnv) (dat : FeatureData)
    (feature_attributes : AttrMap) (f : CollectedFeature) : CollectedFeature :=
  { f with
    name := dat.name.or f.name,
    draw_layer := dat.draw_layer.or f.draw_layer,
    type := dat.type.or f.type,
    attributes := feature_attributes,
    updated_at := env.server_time,
    updated_by := env.current_user_id }

/-- A freshly created feature row (mobile_api.py lines 121-133). -/
def newFeatureRow (env : SyncEnv) (cid : String) (dat : FeatureData)
    (feature_attributes : AttrMap) (fid : Nat) : CollectedFeature :=
  { id := fid,
    client_id := cid,
    draw_layer := dat.draw_layer,
    type := dat.type,
    name := dat.name,
    project_id := env.project_id,
    attributes := feature_attributes,
    created_by := env.current_user_id,
    created_at := (parse_iso_datetime dat.created_at).getD env.server_time,
    updated_by := env.current_user_id,
    updated_at := env.server_time,
    is_active := true }

/-- The conflict resolution of mobile_api.py lines 104-118 on the feature
table: overwrite the existing row only when the payload's `lastModified`
parses and is strictly greater than the row's `updated_at`; otherwise the
table is untouched (server wins, ties included). -/
def resolveExisting (env : SyncEnv) (cid : String) (dat : FeatureData)
    (feature_attributes : AttrMap) (ex : CollectedFeature)
    (lastModified : TsValue) (db : DB) : DB :=
  match parse_iso_datetime lastModified with
  | some cm =>
    if ex.updated_at < cm then
      let fs := updateFirst (featureMatch cid env.project_id)
        (overwriteRow env dat feature_attributes) db.features
      { db with features := fs }
    else db
  | none => db

/-- Processing of one feature-change object (mobile_api.py lines 64-186):
skip falsy `clientId`; a `deleted` payload deactivates the matching row
unconditionally (or is a no-op); falsy `data` is recorded in `failed`;
otherwise resolve against the existing row — overwrite it only when the
parsed `lastModified` is strictly newer than its `updated_at`, else keep
it — or create a fresh row; in every non-failed case the payload's points
are then upserted under the resolved feature row. -/
def processFeature (env : SyncEnv) (tz : String) (acc : BatchAcc)
    (fd : FeatureChange) : BatchAcc :=
  match truthyStr fd.clientId with
  | none => acc
  | some cid =>
    if fd.deleted then
      match acc.db.features.find? (featureMatch cid env.project_id) with
      | some _ =>
        let fs := updateFirst (featureMatch cid env.project_id)
          (deactivateRow env) acc.db.features
        { acc with
          db := { acc.db with features := fs },
          processed := acc.processed ++ [cid] }
      | none => acc
    else
      match fd.data with
      | none => { acc with failed := acc.failed ++ [cid] }
      | some dat =>
        let feature_attributes := storeTimezone dat.attributes tz
        match acc.db.features.find? (featureMatch cid env.project_id) with
        | some ex =>
          let db1 := resolveExisting env cid dat feature_attributes ex
            fd.lastModified acc.db
          let db2 := dat.points.foldl (processPoint env tz ex.id) db1
          { acc with db := db2, processed := acc.processed ++ [cid] }
        | none =>
          let fid := acc.db.next_feature_id
          let db1 := { acc.db with
            features := acc.db.features ++
              [newFeatureRow env cid dat feature_attributes fid],
            next_feature_id := fid + 1 }
          let db2 := dat.points.foldl (processPoint env tz fid) db1
          { acc with db := db2, processed := acc.processed ++ [cid] }

/-- The `for feature_data in client_features` loop over the whole batch. -/
def applyBatch (env : SyncEnv) (tz : String) (db : DB)
    (fs : List FeatureChange) : BatchAcc :=
  fs.foldl (processFeature env tz) { db := db, processed := [], failed := [] }

/-- One formatted point of a change record (mobile_api.py lines 249-260). -/
structure PointRecord where
  client_id : String
  fcode : String
  coords : Int × Int
  attributes : AttrMap
  created_by : Nat
  created_at : Instant
  updated_by : Nat
  updated_at : Instant
  is_active : Bool
  timezone : String
deriving DecidableEq, Repr

/-- One change record of the pull payload (mobile_api.py lines 264-281). -/
structure ChangeRecord where
  clientId : String
  lastModified : Instant
  deleted : Bool
  name : Option String
  draw_layer : Option String
  type : Option String
  project_id : Nat
  attributes : AttrMap
  created_by : Nat
  created_at : Instant
  updated_by : Nat
  updated_at : Instant
  points : List PointRecord
  timezone : String
deriving DecidableEq, Repr

def mkPointRecord (q : CollectedPoint) : PointRecord :=
  { client_id := q.client_id,
    fcode := q.fcode,
    coords := q.coords,
    attributes := q.attributes,
    created_by := q.created_by,
    created_at := q.created_at,
    updated_by := q.updated_by,
    updated_at := q.updated_at,
    is_active := q.is_active,
    timezone := attrTimezoneD q.attributes }

/-- Formats one selected feature: `feature.points` is the relationship
(all point rows with this `feature_id`), of which only active ones are
emitted, and an inactive feature emits an empty point list. -/
def mkChangeRecord (db : DB) (f : CollectedFeature) : ChangeRecord :=
  let feature_points :=
    ((db.points.filter (fun q => q.feature_id == f.id)).filter
      (fun q => q.is_active)).map mkPointRecord
  { clientId := f.client_id,
    lastModified := f.updated_at,
    deleted := !f.is_active,
    name := f.name,
    draw_layer := f.draw_layer,
    type := f.type,
    project_id := f.project_id,
    attributes := f.attributes,
    created_by := f.created_by,
    created_at := f.created_at,
    updated_by := f.updated_by,
    updated_at := f.updated_at,
    points := if f.is_active then feature_points else [],
    timezone := attrTimezoneD f.attributes }

/-- `get_server_changes_since` (mobile_api.py lines 216-283): select the
project's features with `updated_at > last_sync_time`, then keep those
that are active or were updated since the cursor (always true under the
query filter), formatting each.  `current_user_id` is accepted but unused,
as in the source. -/
def get_server_changes_since (db : DB) (project_id : Nat)
    (last_sync_time : Instant) (current_user_id : Nat) : List ChangeRecord :=
  let qs := db.features.filter
    (fun f => f.project_id == project_id && decide (last_sync_time < f.updated_at))
  (qs.filter (fun f => f.is_active || decide (last_sync_time < f.updated_at))).map
    (mkChangeRecord db)

/-- The JSON body + HTTP status returned by the sync endpoint. -/
structure SyncResponse where
  status : Nat
  success : Bool
  message : Option String
  processed : List String
  failed : List String
  changes : List ChangeRecord
  serverTimestamp : Option Instant
deriving DecidableEq, Repr

/-- `parse_iso_datetime(client_last_sync) or datetime.utcfromtimestamp(0)`
(line 52): the cursor defaults to the epoch. -/
def last_sync_of (req : SyncRequest) : Instant :=
  (parse_iso_datetime req.lastSyncTimestamp).getD 0

/-- `sync_project` (mobile_api.py lines 17-200), success path of the inner
transaction: validate the project, run the batch loop, extract the change
set from the pending (pre-commit, post-loop) state, commit, and answer 200
with the accumulators and the request's single server instant. -/
def sync_project (env : SyncEnv) (db : DB) (req : SyncRequest) :
    DB × SyncResponse :=
  if db.projects.contains env.project_id then
    let acc := applyBatch env req.timezone db req.features
    let changes := get_server_changes_since acc.db env.project_id
      (last_sync_of req) env.current_user_id
    (acc.db,
      { status := 200,
        success := true,
        message := none,
        processed := acc.processed,
        failed := acc.failed,
        changes := changes,
        serverTimestamp := some env.server_time })
  else
    (db,
      { status := 404,
        success := false,
        message := some "Project not found",
        processed := [],
        failed := [],
        changes := [],
        serverTimestamp := none })

/-- The transactional session: `committed` is what every other caller can
read, `pending` holds this request's uncommitted writes. -/
structure Session where
  committed : DB
  pending : DB
deriving DecidableEq, Repr

/-- `db.session.rollback()`: discard all pending writes. -/
def Session.rollback (s : Session) : Session :=
  { committed := s.committed, pending := s.committed }

/-- `sync_project` with the storage-failure path made explicit
(mobile_api.py lines 62-207): `failAt = some k` means an unhandled storage
exception with message `errMsg` is raised after the loop has processed the
first `k` feature entries (a `k` past the batch length places the failure
in the extraction or the commit itself); the handler rolls the whole batch
back and answers 500 with `success: false` and a diagnostic message.
`failAt = none` is the success path, which commits the pending state. -/
def sync_project_tx (env : SyncEnv) (s : Session) (req : SyncRequest)
    (failAt : Option Nat) (errMsg : String) : Session × SyncResponse :=
  match failAt with
  | some k =>
    let acc := applyBatch env req.timezone s.pending (req.features.take k)
    let s1 : Session := { committed := s.committed, pending := acc.db }
    (s1.rollback,
      { status := 500,
        success := false,
        message := some ("Database error: " ++ errMsg),
        processed := [],
        failed := [],
        changes := [],
        serverTimestamp := none })
  | none =>
    let (db2, resp) := sync_project env s.pending req
    ({ committed := db2, pending := db2 }, resp)

/-- The full input domain of `parse_iso_datetime`: either a value on which
it returns normally (`regular`), or a string that `isoparse` accepts but
whose UTC normalization overflows the supported datetime range — e.g.
"0001-01-01T00:00:00+01:00" (year 1 underflows `datetime.min` when the
positive offset is subtracted) or "9999-12-31T23:00:00-02:00" (overflows
`datetime.max`). -/
inductive TsInput where
  | regular (v : TsValue)
  | overflowString (s : String)
deriving DecidableEq, Repr

/-- `parse_iso_datetime` with its exception behaviour made explicit: on a
regular input it returns what the function returns; on an overflow string
`dt.astimezone(timezone.utc)` (line 295) raises
`OverflowError("date value out of range")`, which the
`except (ValueError, TypeError)` clause at line 301 does not catch, so the
call raises instead of returning. -/
def parse_iso_datetime_run : TsInput → Except String (Option Instant)
  | .regular v => .ok (parse_iso_datetime v)
  | .overflowString _ => .error "date value out of range"

/-- `sync_project` on a request whose `lastSyncTimestamp` is an arbitrary
parser input, uncaught-exception path included: the project check (line
29) runs first, then line 52 parses the cursor inside the OUTER try but
before the inner one, so an `OverflowError` escaping `parse_iso_datetime`
propagates to the handler at lines 209-213, which answers 500 with
`success: false` and `"Server error: " + str(e)` — no batch processing
happens.  On a regular cursor the endpoint behaves as `sync_project`. -/
def sync_project_cursor (env : SyncEnv) (db : DB) (fs : List FeatureChange)
    (tz : String) : TsInput → DB × SyncResponse
  | .regular v =>
    sync_project env db { features := fs, lastSyncTimestamp := v, timezone := tz }
  | .overflowString _ =>
    if db.projects.contains env.project_id then
      (db,
        { status := 500,
          success := false,
          message := some "Server error: date value out of range",
          processed := [],
          failed := [],
          changes := [],
          serverTimestamp := none })
    else
      (db,
        { status := 404,
          success := false,
          message := some "Project not found",
          processed := [],
          failed := [],
          changes := [],
          serverTimestamp := none })

/-! ### Concrete fixtures

Small concrete databases and requests used to evaluate the model on the
spec's own scenarios. -/

/-- A request against project 1, as user 7, at server instant 100. -/
def envA : SyncEnv := { project_id := 1, current_user_id := 7, server_time := 100 }

/-- Project 1 exists and holds no features or points. -/
def dbEmpty : DB :=
  { projects := [1], features := [], points := [], next_feature_id := 1,
    next_point_id := 1 }

/-- A point payload with client id `p1` at (3, 4). -/
def pointPayloadA : PointPayload :=
  { client_id := some "p1", fcode := some "wv", coords := some [3, 4],
    attributes := [], created_at := .absent }

/-- A feature `data` object carrying one point. -/
def dataA : FeatureData :=
  { name := some "valve", draw_layer := some "Water", type := some "Point",
    attributes := [], points := [pointPayloadA], created_at := .absent }

/-- A non-deleted change for client id `a1` declaring `lastModified = 50`. -/
def changeA : FeatureChange :=
  { clientId := some "a1", deleted := false, lastModified := .validString "t" 50,
    data := some dataA }

/-- Push `changeA` with an absent cursor (epoch default). -/
def reqA : SyncRequest :=
  { features := [changeA], lastSyncTimestamp := .absent, timezone := "UTC" }

/-- An existing server feature row for `a1` with `updated_at = 10`. -/
def featB : CollectedFeature :=
  { id := 1, draw_layer := some "Water", client_id := "a1", type := some "Point",
    name := some "valve", attributes := [("timezone", "UTC")], project_id := 1,
    is_active := true, created_by := 7, created_at := 5, updated_by := 7,
    updated_at := 10 }

/-- The stored active point row `p1` of `featB` at (1, 2). -/
def pointB : CollectedPoint :=
  { id := 1, client_id := "p1", fcode := "wv", coords := (1, 2),
    attributes := [("timezone", "UTC")], project_id := 1, feature_id := 1,
    is_active := true, created_by := 7, created_at := 5, updated_by := 7,
    updated_at := 10 }

/-- Project 1 holding `featB` with its point `pointB`. -/
def dbB : DB :=
  { projects := [1], features := [featB], points := [pointB],
    next_feature_id := 2, next_point_id := 2 }

/-- A strictly newer update (`lastModified = 20 > 10`) for `a1`, moving its
point to (3, 4). -/
def changeB : FeatureChange :=
  { clientId := some "a1", deleted := false, lastModified := .validString "t" 20,
    data := some dataA }

def reqB : SyncRequest :=
  { features := [changeB], lastSyncTimestamp := .absent, timezone := "UTC" }

/-- A stale update (`lastModified = 5 ≤ 10`) for `a1`, still carrying the
point payload at (3, 4). -/
def changeC : FeatureChange :=
  { clientId := some "a1", deleted := false, lastModified := .validString "t" 5,
    data := some dataA }

def reqC : SyncRequest :=
  { features := [changeC], lastSyncTimestamp := .absent, timezone := "UTC" }

/-- A `deleted = true` payload for `a1`. -/
def delA : FeatureChange :=
  { clientId := some "a1", deleted := true, lastModified := .absent, data := none }

/-- A batch holding a delete for `a1` followed by a create for `a1`. -/
def reqD : SyncRequest :=
  { features := [delA, changeA], lastSyncTimestamp := .absent, timezone := "UTC" }

/-- A pointless `data` object for batch-shape scenarios. -/
def dataE : FeatureData :=
  { name := some "n", draw_layer := some "Water", type := some "Point",
    attributes := [], points := [], created_at := .absent }

/-- The spec's batch-of-3 scenario: the middle entry is missing `clientId`. -/
def reqE : SyncRequest :=
  { features :=
      [{ clientId := some "b1", deleted := false, lastModified := .absent,
         data := some dataE },
       { clientId := none, deleted := false, lastModified := .absent,
         data := some dataE },
       { clientId := some "b2", deleted := false, lastModified := .absent,
         data := some dataE }],
    lastSyncTimestamp := .absent, timezone := "UTC" }

/-- A request whose cursor is an unparseable string. -/
def reqBad : SyncRequest :=
  { features := [], lastSyncTimestamp := .invalidString "bogus",
    timezone := "UTC" }

/-- The key a point upsert resolves on: `(client_id, feature_id)`. -/
def pointKey (q : CollectedPoint) : String × Nat :=
  (q.client_id, q.feature_id)

/-- No two point rows of the table share a `(client_id, feature_id)` key. -/
def pointsUnique (ps : List CollectedPoint) : Prop :=
  (ps.map pointKey).Nodup

instance (ps : List CollectedPoint) : Decidable (pointsUnique ps) := by
  unfold pointsUnique; infer_instance

/-- The row-identity projection of a point row: primary key, upsert key and
active flag — everything the append-only question is about. -/
def pointId (q : CollectedPoint) : Nat × String × Nat × Bool :=
  (q.id, q.client_id, q.feature_id, q.is_active)

/-- The contribution of one non-deleted batch entry to `processed`: its
client id when both `clientId` and `data` are truthy, nothing otherwise
(this depends only on the payload, never on the database). -/
def procOf (fd : FeatureChange) : List String :=
  match truthyStr fd.clientId, fd.data with
  | some cid, some _ => [cid]
  | _, _ => []

/-- The contribution of one non-deleted batch entry to `failed`. -/
def failOf (fd : FeatureChange) : List String :=
  match truthyStr fd.clientId, fd.data with
  | some cid, none => [cid]
  | _, _ => []

/-- `processed` of a delete-free batch, computed from the payloads alone. -/
def procList : List FeatureChange → List String
  | [] => []
  | fd :: fs => procOf fd ++ procList fs

/-- `failed` of a delete-free batch, computed from the payloads alone. -/
def failList : List FeatureChange → List String
  | [] => []
  | fd :: fs => failOf fd ++ failList fs

/-- Fresh loop state over `dbEmpty`. -/
def accEmpty : BatchAcc := { db := dbEmpty, processed := [], failed := [] }

/-- Fresh loop state over `dbB`. -/
def accB : BatchAcc := { db := dbB, processed := [], failed := [] }

/-! ### Characterization lemmas for the step functions -/

theorem processPoint_skip {env : SyncEnv} {tz : String} {fid : Nat} {db : DB}
    {pd : PointPayload} (h : truthyStr pd.client_id = none) :
    processPoint env tz fid db pd = db := by
  simp only [processPoint, h]

theorem processPoint_update {env : SyncEnv} {tz : String} {fid : Nat} {db : DB}
    {pd : PointPayload} {pcid : String} {q : CollectedPoint}
    (h1 : truthyStr pd.client_id = some pcid)
    (h2 : db.points.find? (pointMatch pcid fid) = some q) :
    processPoint env tz fid db pd =
      { db with points := updateFirst (pointMatch pcid fid)
                            (updatePointRow env (parseCoords pd.coords) pd
                              (storeTimezone pd.attributes tz)) db.points } := by
  simp only [processPoint, h1, h2]

theorem processPoint_insert {env : SyncEnv} {tz : String} {fid : Nat} {db : DB}
    {pd : PointPayload} {pcid : String}
    (h1 : truthyStr pd.client_id = some pcid)
    (h2 : db.points.find? (pointMatch pcid fid) = none) :
    processPoint env tz fid db pd =
      { db with
        points := db.points ++
          [newPointRow env fid db.next_point_id pcid (parseCoords pd.coords) pd
            (storeTimezone pd.attributes tz)],
        next_point_id := db.next_point_id + 1 } := by
  simp only [processPoint, h1, h2]

theorem processFeature_skip {env : SyncEnv} {tz : String} {acc : BatchAcc}
    {fd : FeatureChange} (h : truthyStr fd.clientId = none) :
    processFeature env tz acc fd = acc := by
  simp only [processFeature, h]

theorem processFeature_delete_found {env : SyncEnv} {tz : String}
    {acc : BatchAcc} {fd : FeatureChange} {cid : String} {ex : CollectedFeature}
    (h1 : truthyStr fd.clientId = some cid) (h2 : fd.deleted = true)
    (h3 : acc.db.features.find? (featureMatch cid env.project_id) = some ex) :
    processFeature env tz acc fd =
      { acc with
        db := { acc.db with
                  features := updateFirst (featureMatch cid env.project_id)
                    (deactivateRow env) acc.db.features },
        processed := acc.processed ++ [cid] } := by
  simp only [processFeature, h1, h2, h3, if_true]

theorem processFeature_delete_missing {env : SyncEnv} {tz : String}
    {acc : BatchAcc} {fd : FeatureChange} {cid : String}
    (h1 : truthyStr fd.clientId = some cid) (h2 : fd.deleted = true)
    (h3 : acc.db.features.find? (featureMatch cid env.project_id) = none) :
    processFeature env tz acc fd = acc := by
  simp only [processFeature, h1, h2, h3, if_true]

theorem processFeature_invalid_data {env : SyncEnv} {tz : String}
    {acc : BatchAcc} {fd : FeatureChange} {cid : String}
    (h1 : truthyStr fd.clientId = some cid) (h2 : fd.deleted = false)
    (h3 : fd.data = none) :
    processFeature env tz acc fd = { acc with failed := acc.failed ++ [cid] } := by
  simp only [processFeature, h1, h2, h3, if_false, Bool.false_eq_true]

theorem processFeature_existing {env : SyncEnv} {tz : String} {acc : BatchAcc}
    {fd : FeatureChange} {cid : String} {dat : FeatureData} {ex : CollectedFeature}
    (h1 : truthyStr fd.clientId = some cid) (h2 : fd.deleted = false)
    (h3 : fd.data = some dat)
    (h4 : acc.db.features.find? (featureMatch cid env.project_id) = some ex) :
    processFeature env tz acc fd =
      { acc with
        db := dat.points.foldl (processPoint env tz ex.id)
                (resolveExisting env cid dat (storeTimezone dat.attributes tz) ex
                  fd.lastModified acc.db),
        processed := acc.processed ++ [cid] } := by
  simp only [processFeature, h1, h2, h3, h4, if_false, Bool.false_eq_true]

theorem processFeature_create {env : SyncEnv} {tz : String} {acc : BatchAcc}
    {fd : FeatureChange} {cid : String} {dat : FeatureData}
    (h1 : truthyStr fd.clientId = some cid) (h2 : fd.deleted = false)
    (h3 : fd.data = some dat)
    (h4 : acc.db.features.find? (featureMatch cid env.project_id) = none) :
    processFeature env tz acc fd =
      { acc with
        db := dat.points.foldl (processPoint env tz acc.db.next_feature_id)
                { acc.db with
                  features := acc.db.features ++
                    [newFeatureRow env cid dat (storeTimezone dat.attributes tz)
                      acc.db.next_feature_id],
                  next_feature_id := acc.db.next_feature_id + 1 },
        processed := acc.processed ++ [cid] } := by
  simp only [processFeature, h1, h2, h3, h4, if_false, Bool.false_eq_true]

/-! ### Claim C7 -/

/-- C7: on a storage failure at any point while processing a batch — after
any number `k` of loop iterations, during extraction, or at commit — the
whole batch is rolled back, so no feature or point mutation of the batch is
visible in the committed state, and the response is HTTP 500 with
`success: false` and a diagnostic message. -/
theorem c7_rollback_on_failure (env : SyncEnv) (s : Session) (req : SyncRequest)
    (k : Nat) (msg : String) :
    (sync_project_tx env s req (some k) msg).1.committed = s.committed ∧
    (sync_project_tx env s req (some k) msg).1.pending = s.committed ∧
    (sync_project_tx env s req (some k) msg).2.status = 500 ∧
    (sync_project_tx env s req (some k) msg).2.success = false ∧
    (sync_project_tx env s req (some k) msg).2.message =
      some ("Database error: " ++ msg) :=
  ⟨rfl, rfl, rfl, rfl, rfl⟩

/-! ### Closed counterexamples -/

/-- C1 fails on the code: the change set does not exclude client ids pushed
in the same batch.  Pushing a new feature `a1` with an epoch cursor returns
a response whose `changes` echoes `a1` straight back, even though `a1` is
the pushed (and processed) client id. -/
theorem c1_counterexample :
    (sync_project envA dbEmpty reqA).2.processed = ["a1"] ∧
    (sync_project envA dbEmpty reqA).2.changes.map ChangeRecord.clientId =
      ["a1"] := by
  decide

/-- C2 fails on the code: a geometry-bearing update to an existing feature
does not deactivate the previously active point rows and does not insert a
fresh set — the single stored row is overwritten in place, stays active,
and the table still holds exactly one row. -/
theorem c2_counterexample :
    (sync_project envA dbB reqB).1.points.map pointId = [(1, "p1", 1, true)] ∧
    (sync_project envA dbB reqB).1.points.map CollectedPoint.coords =
      [(3, 4)] := by
  decide

/-- C3 fails on the code as stated: with `lastModified = 5 ≤ updated_at = 10`
the feature row is indeed left unchanged and no error is reported, but the
payload's stored points are NOT left unchanged — the point moves from
(1, 2) to (3, 4). -/
theorem c3_counterexample :
    (sync_project envA dbB reqC).1.features = [featB] ∧
    (sync_project envA dbB reqC).2.failed = [] ∧
    pointB.coords = (1, 2) ∧
    (sync_project envA dbB reqC).1.points.map CollectedPoint.coords =
      [(3, 4)] := by
  decide

/-- C5 fails on the code: resubmitting the identical batch
`[delete a1, create a1]` (same cursor, even the same server instant) yields
a different final state — the feature flips from active to inactive — and a
different `processed` list. -/
theorem c5_counterexample :
    (sync_project envA dbEmpty reqD).2.processed = ["a1"] ∧
    (sync_project envA (sync_project envA dbEmpty reqD).1 reqD).2.processed =
      ["a1", "a1"] ∧
    (sync_project envA dbEmpty reqD).1.features.map CollectedFeature.is_active =
      [true] ∧
    (sync_project envA (sync_project envA dbEmpty reqD).1
        reqD).1.features.map CollectedFeature.is_active = [false] := by
  decide

/-- C6 fails on the code as stated: in the batch-of-3 scenario with one
feature missing `clientId`, the other two are processed and the response is
200, but the malformed feature is recorded nowhere — `failed` is empty, not
holding any identifier for it. -/
theorem c6_counterexample :
    (sync_project envA dbEmpty reqE).2.status = 200 ∧
    (sync_project envA dbEmpty reqE).2.processed = ["b1", "b2"] ∧
    (sync_project envA dbEmpty reqE).2.failed = [] := by
  decide

/-! ### Generic lemmas about in-place row updates -/

theorem mem_updateFirst {α : Type} {p : α → Bool} {g : α → α} {xs : List α}
    {x : α} (hx : x ∈ updateFirst p g xs) :
    x ∈ xs ∨ ∃ y, y ∈ xs ∧ x = g y := by
  induction xs with
  | nil => simp [updateFirst] at hx
  | cons a as ih =>
    rw [updateFirst] at hx
    cases hpa : p a with
    | true =>
      simp only [hpa, if_true] at hx
      rcases List.mem_cons.mp hx with h | h
      · exact Or.inr ⟨a, List.mem_cons_self a as, h⟩
      · exact Or.inl (List.mem_cons_of_mem a h)
    | false =>
      simp only [hpa, Bool.false_eq_true, if_false] at hx
      rcases List.mem_cons.mp hx with h | h
      · exact Or.inl (h ▸ List.mem_cons_self a as)
      · rcases ih h with h1 | ⟨y, hy, hxy⟩
        · exact Or.inl (List.mem_cons_of_mem a h1)
        · exact Or.inr ⟨y, List.mem_cons_of_mem a hy, hxy⟩

theorem updateFirst_map_key {α β : Type} {k : α → β} {p : α → Bool} {g : α → α}
    (hg : ∀ y, k (g y) = k y) : ∀ xs : List α,
    (updateFirst p g xs).map k = xs.map k := by
  intro xs
  induction xs with
  | nil => rfl
  | cons a as ih =>
    rw [updateFirst]
    cases hpa : p a with
    | true => simp [hg]
    | false => simp [ih]

theorem updateFirst_length {α : Type} {p : α → Bool} {g : α → α} :
    ∀ xs : List α, (updateFirst p g xs).length = xs.length := by
  intro xs
  induction xs with
  | nil => rfl
  | cons a as ih =>
    rw [updateFirst]
    cases hpa : p a with
    | true => simp
    | false => simp [ih]

/-! ### Frame lemmas: which tables each step can touch -/

theorem resolveExisting_frame (env : SyncEnv) (cid : String) (dat : FeatureData)
    (fa : AttrMap) (ex : CollectedFeature) (lm : TsValue) (db : DB) :
    (resolveExisting env cid dat fa ex lm db).points = db.points ∧
    (resolveExisting env cid dat fa ex lm db).projects = db.projects ∧
    (resolveExisting env cid dat fa ex lm db).next_point_id =
      db.next_point_id := by
  unfold resolveExisting
  rcases parse_iso_datetime lm with _ | cm
  · exact ⟨rfl, rfl, rfl⟩
  · dsimp only
    by_cases h : ex.updated_at < cm
    · rw [if_pos h]; exact ⟨rfl, rfl, rfl⟩
    · rw [if_neg h]; exact ⟨rfl, rfl, rfl⟩

theorem resolveExisting_newer {env : SyncEnv} {cid : String} {dat : FeatureData}
    {fa : AttrMap} {ex : CollectedFeature} {lm : TsValue} {db : DB} {cm : Instant}
    (h1 : parse_iso_datetime lm = some cm) (h2 : ex.updated_at < cm) :
    resolveExisting env cid dat fa ex lm db =
      { db with features := updateFirst (featureMatch cid env.project_id)
                              (overwriteRow env dat fa) db.features } := by
  unfold resolveExisting
  rw [h1]
  dsimp only
  rw [if_pos h2]

theorem resolveExisting_stale {env : SyncEnv} {cid : String} {dat : FeatureData}
    {fa : AttrMap} {ex : CollectedFeature} {lm : TsValue} {db : DB}
    (h : parse_iso_datetime lm = none ∨
      ∃ cm, parse_iso_datetime lm = some cm ∧ cm ≤ ex.updated_at) :
    resolveExisting env cid dat fa ex lm db = db := by
  unfold resolveExisting
  rcases h with h | ⟨cm, h1, h2⟩
  · rw [h]
  · rw [h1]
    dsimp only
    rw [if_neg (not_lt.mpr h2)]

theorem resolveExisting_features_mem {env : SyncEnv} {cid : String}
    {dat : FeatureData} {fa : AttrMap} {ex : CollectedFeature} {lm : TsValue}
    {db : DB} :
    ∀ f ∈ (resolveExisting env cid dat fa ex lm db).features,
      f ∈ db.features ∨ f.updated_at = env.server_time := by
  intro f hf
  unfold resolveExisting at hf
  rcases hp : parse_iso_datetime lm with _ | cm
  · rw [hp] at hf; exact Or.inl hf
  · rw [hp] at hf
    dsimp only at hf
    by_cases h : ex.updated_at < cm
    · rw [if_pos h] at hf
      rcases mem_updateFirst hf with h1 | ⟨y, _, rfl⟩
      · exact Or.inl h1
      · exact Or.inr rfl
    · rw [if_neg h] at hf; exact Or.inl hf

theorem processPoint_frame (env : SyncEnv) (tz : String) (fid : Nat) (db : DB)
    (pd : PointPayload) :
    (processPoint env tz fid db pd).features = db.features ∧
    (processPoint env tz fid db pd).projects = db.projects ∧
    (processPoint env tz fid db pd).next_feature_id = db.next_feature_id := by
  rcases h : truthyStr pd.client_id with _ | pcid
  · rw [processPoint_skip h]; exact ⟨rfl, rfl, rfl⟩
  · rcases h2 : db.points.find? (pointMatch pcid fid) with _ | q
    · rw [processPoint_insert h h2]; exact ⟨rfl, rfl, rfl⟩
    · rw [processPoint_update h h2]; exact ⟨rfl, rfl, rfl⟩

theorem foldl_processPoint_frame (env : SyncEnv) (tz : String) (fid : Nat) :
    ∀ (pds : List PointPayload) (db : DB),
    ((pds.foldl (processPoint env tz fid) db)).features = db.features ∧
    ((pds.foldl (processPoint env tz fid) db)).projects = db.projects ∧
    ((pds.foldl (processPoint env tz fid) db)).next_feature_id =
      db.next_feature_id := by
  intro pds
  induction pds with
  | nil => intro db; exact ⟨rfl, rfl, rfl⟩
  | cons pd pds ih =>
    intro db
    rw [List.foldl_cons]
    obtain ⟨hf, hp, hn⟩ := ih (processPoint env tz fid db pd)
    obtain ⟨hf2, hp2, hn2⟩ := processPoint_frame env tz fid db pd
    exact ⟨hf.trans hf2, hp.trans hp2, hn.trans hn2⟩

theorem processFeature_projects (env : SyncEnv) (tz : String) (acc : BatchAcc)
    (fd : FeatureChange) :
    (processFeature env tz acc fd).db.projects = acc.db.projects := by
  rcases h1 : truthyStr fd.clientId with _ | cid
  · rw [processFeature_skip h1]
  · cases h2 : fd.deleted with
    | true =>
      rcases h3 : acc.db.features.find? (featureMatch cid env.project_id)
        with _ | ex
      · rw [processFeature_delete_missing h1 h2 h3]
      · rw [processFeature_delete_found h1 h2 h3]
    | false =>
      rcases h3 : fd.data with _ | dat
      · rw [processFeature_invalid_data h1 h2 h3]
      · rcases h4 : acc.db.features.find? (featureMatch cid env.project_id)
          with _ | ex
        · rw [processFeature_create h1 h2 h3 h4]
          exact (foldl_processPoint_frame env tz acc.db.next_feature_id
            dat.points _).2.1
        · rw [processFeature_existing h1 h2 h3 h4]
          have h5 := (foldl_processPoint_frame env tz ex.id dat.points
            (resolveExisting env cid dat (storeTimezone dat.attributes tz) ex
              fd.lastModified acc.db)).2.1
          exact h5.trans (resolveExisting_frame env cid dat
            (storeTimezone dat.attributes tz) ex fd.lastModified acc.db).2.1

theorem foldl_processFeature_projects (env : SyncEnv) (tz : String) :
    ∀ (fs : List FeatureChange) (acc : BatchAcc),
    (fs.foldl (processFeature env tz) acc).db.projects = acc.db.projects := by
  intro fs
  induction fs with
  | nil => intro acc; rfl
  | cons fd fs ih =>
    intro acc
    rw [List.foldl_cons]
    exact (ih (processFeature env tz acc fd)).trans
      (processFeature_projects env tz acc fd)

/-! ### Every touched row carries the request's single server instant -/

theorem processPoint_points_mem (env : SyncEnv) (tz : String) (fid : Nat)
    (db : DB) (pd : PointPayload) :
    ∀ q ∈ (processPoint env tz fid db pd).points,
      q ∈ db.points ∨ q.updated_at = env.server_time := by
  intro q hq
  rcases h : truthyStr pd.client_id with _ | pcid
  · rw [processPoint_skip h] at hq; exact Or.inl hq
  · rcases h2 : db.points.find? (pointMatch pcid fid) with _ | q0
    · rw [processPoint_insert h h2] at hq
      dsimp only at hq
      rcases List.mem_append.mp hq with h3 | h3
      · exact Or.inl h3
      · rcases List.mem_singleton.mp h3 with rfl
        exact Or.inr rfl
    · rw [processPoint_update h h2] at hq
      dsimp only at hq
      rcases mem_updateFirst hq with h3 | ⟨y, _, rfl⟩
      · exact Or.inl h3
      · exact Or.inr rfl

theorem foldl_processPoint_points_mem (env : SyncEnv) (tz : String) (fid : Nat) :
    ∀ (pds : List PointPayload) (db : DB),
    ∀ q ∈ (pds.foldl (processPoint env tz fid) db).points,
      q ∈ db.points ∨ q.updated_at = env.server_time := by
  intro pds
  induction pds with
  | nil => intro db q hq; exact Or.inl hq
  | cons pd pds ih =>
    intro db q hq
    rw [List.foldl_cons] at hq
    rcases ih (processPoint env tz fid db pd) q hq with h | h
    · exact processPoint_points_mem env tz fid db pd q h
    · exact Or.inr h

theorem processFeature_features_mem (env : SyncEnv) (tz : String)
    (acc : BatchAcc) (fd : FeatureChange) :
    ∀ f ∈ (processFeature env tz acc fd).db.features,
      f ∈ acc.db.features ∨ f.updated_at = env.server_time := by
  intro f hf
  rcases h1 : truthyStr fd.clientId with _ | cid
  · rw [processFeature_skip h1] at hf; exact Or.inl hf
  · cases h2 : fd.deleted with
    | true =>
      rcases h3 : acc.db.features.find? (featureMatch cid env.project_id)
        with _ | ex
      · rw [processFeature_delete_missing h1 h2 h3] at hf; exact Or.inl hf
      · rw [processFeature_delete_found h1 h2 h3] at hf
        dsimp only at hf
        rcases mem_updateFirst hf with h | ⟨y, _, rfl⟩
        · exact Or.inl h
        · exact Or.inr rfl
    | false =>
      rcases h3 : fd.data with _ | dat
      · rw [processFeature_invalid_data h1 h2 h3] at hf; exact Or.inl hf
      · rcases h4 : acc.db.features.find? (featureMatch cid env.project_id)
          with _ | ex
        · rw [processFeature_create h1 h2 h3 h4] at hf
          dsimp only at hf
          rw [(foldl_processPoint_frame env tz acc.db.next_feature_id
            dat.points _).1] at hf
          rcases List.mem_append.mp hf with h | h
          · exact Or.inl h
          · rcases List.mem_singleton.mp h with rfl
            exact Or.inr rfl
        · rw [processFeature_existing h1 h2 h3 h4] at hf
          dsimp only at hf
          rw [(foldl_processPoint_frame env tz ex.id dat.points _).1] at hf
          exact resolveExisting_features_mem f hf

theorem processFeature_points_mem (env : SyncEnv) (tz : String)
    (acc : BatchAcc) (fd : FeatureChange) :
    ∀ q ∈ (processFeature env tz acc fd).db.points,
      q ∈ acc.db.points ∨ q.updated_at = env.server_time := by
  intro q hq
  rcases h1 : truthyStr fd.clientId with _ | cid
  · rw [processFeature_skip h1] at hq; exact Or.inl hq
  · cases h2 : fd.deleted with
    | true =>
      rcases h3 : acc.db.features.find? (featureMatch cid env.project_id)
        with _ | ex
      · rw [processFeature_delete_missing h1 h2 h3] at hq; exact Or.inl hq
      · rw [processFeature_delete_found h1 h2 h3] at hq; exact Or.inl hq
    | false =>
      rcases h3 : fd.data with _ | dat
      · rw [processFeature_invalid_data h1 h2 h3] at hq; exact Or.inl hq
      · rcases h4 : acc.db.features.find? (featureMatch cid env.project_id)
          with _ | ex
        · rw [processFeature_create h1 h2 h3 h4] at hq
          dsimp only at hq
          rcases foldl_processPoint_points_mem env tz acc.db.next_feature_id
            dat.points _ q hq with h | h
          · exact Or.inl h
          · exact Or.inr h
        · rw [processFeature_existing h1 h2 h3 h4] at hq
          dsimp only at hq
          rcases foldl_processPoint_points_mem env tz ex.id dat.points _ q hq
            with h | h
          · rw [(resolveExisting_frame env cid dat
              (storeTimezone dat.attributes tz) ex fd.lastModified acc.db).1]
              at h
            exact Or.inl h
          · exact Or.inr h

theorem foldl_processFeature_features_mem (env : SyncEnv) (tz : String) :
    ∀ (fs : List FeatureChange) (acc : BatchAcc),
    ∀ f ∈ (fs.foldl (processFeature env tz) acc).db.features,
      f ∈ acc.db.features ∨ f.updated_at = env.server_time := by
  intro fs
  induction fs with
  | nil => intro acc f hf; exact Or.inl hf
  | cons fd fs ih =>
    intro acc f hf
    rw [List.foldl_cons] at hf
    rcases ih (processFeature env tz acc fd) f hf with h | h
    · exact processFeature_features_mem env tz acc fd f h
    · exact Or.inr h

theorem foldl_processFeature_points_mem (env : SyncEnv) (tz : String) :
    ∀ (fs : List FeatureChange) (acc : BatchAcc),
    ∀ q ∈ (fs.foldl (processFeature env tz) acc).db.points,
      q ∈ acc.db.points ∨ q.updated_at = env.server_time := by
  intro fs
  induction fs with
  | nil => intro acc q hq; exact Or.inl hq
  | cons fd fs ih =>
    intro acc q hq
    rw [List.foldl_cons] at hq
    rcases ih (processFeature env tz acc fd) q hq with h | h
    · exact processFeature_points_mem env tz acc fd q h
    · exact Or.inr h

/-! ### Membership in the extracted change set -/

theorem mem_get_server_changes {db : DB} {pid : Nat} {cur : Instant}
    {uid : Nat} {c : ChangeRecord} :
    c ∈ get_server_changes_since db pid cur uid ↔
      ∃ f, f ∈ db.features ∧ f.project_id = pid ∧ cur < f.updated_at ∧
        c = mkChangeRecord db f := by
  unfold get_server_changes_since
  constructor
  · intro h
    rcases List.mem_map.mp h with ⟨f, hf, rfl⟩
    rcases List.mem_filter.mp hf with ⟨hf1, _⟩
    rcases List.mem_filter.mp hf1 with ⟨hmem, hpred⟩
    simp only [Bool.and_eq_true, beq_iff_eq, decide_eq_true_eq] at hpred
    exact ⟨f, hmem, hpred.1, hpred.2, rfl⟩
  · rintro ⟨f, hmem, hpid, hcur, rfl⟩
    apply List.mem_map.mpr
    refine ⟨f, List.mem_filter.mpr ⟨List.mem_filter.mpr ⟨hmem, ?_⟩, ?_⟩, rfl⟩
    · simp [hpid, hcur]
    · simp [hcur]

/-! ### Equations for the endpoint's two answers -/

theorem sync_project_200 {env : SyncEnv} {db : DB} {req : SyncRequest}
    (h : db.projects.contains env.project_id = true) :
    sync_project env db req =
      ((applyBatch env req.timezone db req.features).db,
       { status := 200,
         success := true,
         message := none,
         processed := (applyBatch env req.timezone db req.features).processed,
         failed := (applyBatch env req.timezone db req.features).failed,
         changes := get_server_changes_since
           (applyBatch env req.timezone db req.features).db env.project_id
           (last_sync_of req) env.current_user_id,
         serverTimestamp := some env.server_time }) := by
  simp only [sync_project, h, if_true]

theorem sync_project_404 {env : SyncEnv} {db : DB} {req : SyncRequest}
    (h : db.projects.contains env.project_id = false) :
    sync_project env db req =
      (db,
       { status := 404,
         success := false,
         message := some "Project not found",
         processed := [],
         failed := [],
         changes := [],
         serverTimestamp := none }) := by
  simp only [sync_project, h, Bool.false_eq_true, if_false]

theorem applyBatch_features_mem (env : SyncEnv) (tz : String) (db : DB)
    (fs : List FeatureChange) :
    ∀ f ∈ (applyBatch env tz db fs).db.features,
      f ∈ db.features ∨ f.updated_at = env.server_time := by
  intro f hf
  exact foldl_processFeature_features_mem env tz fs _ f hf

theorem applyBatch_points_mem (env : SyncEnv) (tz : String) (db : DB)
    (fs : List FeatureChange) :
    ∀ q ∈ (applyBatch env tz db fs).db.points,
      q ∈ db.points ∨ q.updated_at = env.server_time := by
  intro q hq
  exact foldl_processFeature_points_mem env tz fs _ q hq

theorem applyBatch_projects (env : SyncEnv) (tz : String) (db : DB)
    (fs : List FeatureChange) :
    (applyBatch env tz db fs).db.projects = db.projects :=
  foldl_processFeature_projects env tz fs _

/-! ### Claim C8 -/

/-- C8: a single server-chosen instant `env.server_time` is fixed at the
start of the request; every feature row and every point row created,
updated, or deactivated by the request carries `updated_at` equal to
exactly that instant (untouched rows are the pre-existing ones), the 200
response's `serverTimestamp` is that same instant, and a subsequent pull
whose cursor equals that instant excludes all touched records — every
change it returns stems from a row already in the table before the
request. -/
theorem c8_single_server_instant (env : SyncEnv) (db : DB) (req : SyncRequest) :
    (∀ f ∈ (sync_project env db req).1.features,
        f ∈ db.features ∨ f.updated_at = env.server_time) ∧
    (∀ q ∈ (sync_project env db req).1.points,
        q ∈ db.points ∨ q.updated_at = env.server_time) ∧
    (db.projects.contains env.project_id = true →
        (sync_project env db req).2.serverTimestamp = some env.server_time) ∧
    (∀ c ∈ get_server_changes_since (sync_project env db req).1 env.project_id
        env.server_time env.current_user_id,
      ∃ f, f ∈ db.features ∧ c = mkChangeRecord (sync_project env db req).1 f) := by
  cases hb : db.projects.contains env.project_id with
  | false =>
    rw [sync_project_404 hb]
    refine ⟨fun f hf => Or.inl hf, fun q hq => Or.inl hq, ?_, ?_⟩
    · intro h; exact absurd h (by decide)
    · intro c hcm
      rcases mem_get_server_changes.mp hcm with ⟨f, hmem, _, _, rfl⟩
      exact ⟨f, hmem, rfl⟩
  | true =>
    rw [sync_project_200 hb]
    refine ⟨?_, ?_, fun _ => rfl, ?_⟩
    · exact applyBatch_features_mem env req.timezone db req.features
    · exact applyBatch_points_mem env req.timezone db req.features
    · intro c hcm
      rcases mem_get_server_changes.mp hcm with ⟨f, hmem, _, hcur, rfl⟩
      rcases applyBatch_features_mem env req.timezone db req.features f hmem
        with h | h
      · exact ⟨f, h, rfl⟩
      · rw [h] at hcur
        exact absurd hcur (lt_irrefl _)

/-- C8 witness at a concrete input: project 1 exists, so the concrete
request's response stamps `serverTimestamp = 100`. -/
theorem c8_witness :
    dbEmpty.projects.contains envA.project_id = true ∧
    (sync_project envA dbEmpty reqA).2.serverTimestamp =
      some envA.server_time :=
  ⟨by decide, (c8_single_server_instant envA dbEmpty reqA).2.2.1 (by decide)⟩

/-! ### Claim C1 (amended) -/

/-- C1, as the code actually behaves: the change set performs NO exclusion
of the pushed batch's client ids.  On the 200 path the response's `changes`
is exactly the extraction over the post-batch (pre-commit) state, and a
record is in it precisely when some feature of that state belongs to the
project and has `updated_at` strictly greater than the cursor — pushed
features included (they carry `updated_at = server_time`). -/
theorem c1_change_set_no_exclusion (env : SyncEnv) (db : DB) (req : SyncRequest)
    (h : db.projects.contains env.project_id = true) :
    (sync_project env db req).2.changes =
      get_server_changes_since (applyBatch env req.timezone db req.features).db
        env.project_id (last_sync_of req) env.current_user_id ∧
    ∀ c, c ∈ (sync_project env db req).2.changes ↔
      ∃ f, f ∈ (applyBatch env req.timezone db req.features).db.features ∧
        f.project_id = env.project_id ∧ last_sync_of req < f.updated_at ∧
        c = mkChangeRecord (applyBatch env req.timezone db req.features).db f := by
  rw [sync_project_200 h]
  dsimp only
  exact ⟨rfl, fun c => mem_get_server_changes⟩

/-- C1 witness at a concrete input. -/
theorem c1_witness :
    dbEmpty.projects.contains envA.project_id = true ∧
    (sync_project envA dbEmpty reqA).2.changes =
      get_server_changes_since
        (applyBatch envA reqA.timezone dbEmpty reqA.features).db
        envA.project_id (last_sync_of reqA) envA.current_user_id :=
  ⟨by decide, (c1_change_set_no_exclusion envA dbEmpty reqA (by decide)).1⟩

/-! ### Claim C2 (amended): the point table only ever grows -/

theorem processPoint_pointIds (env : SyncEnv) (tz : String) (fid : Nat)
    (db : DB) (pd : PointPayload) :
    ∃ t, (processPoint env tz fid db pd).points.map pointId =
        db.points.map pointId ++ t ∧ ∀ x ∈ t, x.2.2.2 = true := by
  rcases h : truthyStr pd.client_id with _ | pcid
  · rw [processPoint_skip h]
    exact ⟨[], (List.append_nil _).symm, by simp⟩
  · rcases h2 : db.points.find? (pointMatch pcid fid) with _ | q
    · rw [processPoint_insert h h2]
      dsimp only
      refine ⟨[(db.next_point_id, pcid, fid, true)], ?_, ?_⟩
      · rw [List.map_append]; rfl
      · intro x hx
        rcases List.mem_singleton.mp hx with rfl
        rfl
    · rw [processPoint_update h h2]
      dsimp only
      have hmap := updateFirst_map_key (k := pointId)
        (p := pointMatch pcid fid)
        (g := updatePointRow env (parseCoords pd.coords) pd
          (storeTimezone pd.attributes tz)) (fun y => rfl) db.points
      rw [hmap]
      exact ⟨[], (List.append_nil _).symm, by simp⟩

theorem foldl_processPoint_pointIds (env : SyncEnv) (tz : String) (fid : Nat) :
    ∀ (pds : List PointPayload) (db : DB),
    ∃ t, ((pds.foldl (processPoint env tz fid) db).points.map pointId) =
        db.points.map pointId ++ t ∧ ∀ x ∈ t, x.2.2.2 = true := by
  intro pds
  induction pds with
  | nil => intro db; exact ⟨[], (List.append_nil _).symm, by simp⟩
  | cons pd pds ih =>
    intro db
    obtain ⟨t1, h1, ha1⟩ := processPoint_pointIds env tz fid db pd
    obtain ⟨t2, h2, ha2⟩ := ih (processPoint env tz fid db pd)
    refine ⟨t1 ++ t2, ?_, ?_⟩
    · rw [List.foldl_cons, h2, h1, List.append_assoc]
    · intro x hx
      rcases List.mem_append.mp hx with h | h
      · exact ha1 x h
      · exact ha2 x h

theorem processFeature_pointIds (env : SyncEnv) (tz : String) (acc : BatchAcc)
    (fd : FeatureChange) :
    ∃ t, ((processFeature env tz acc fd).db.points.map pointId) =
        acc.db.points.map pointId ++ t ∧ ∀ x ∈ t, x.2.2.2 = true := by
  rcases h1 : truthyStr fd.clientId with _ | cid
  · rw [processFeature_skip h1]
    exact ⟨[], (List.append_nil _).symm, by simp⟩
  · cases h2 : fd.deleted with
    | true =>
      rcases h3 : acc.db.features.find? (featureMatch cid env.project_id)
        with _ | ex
      · rw [processFeature_delete_missing h1 h2 h3]
        exact ⟨[], (List.append_nil _).symm, by simp⟩
      · rw [processFeature_delete_found h1 h2 h3]
        exact ⟨[], (List.append_nil _).symm, by simp⟩
    | false =>
      rcases h3 : fd.data with _ | dat
      · rw [processFeature_invalid_data h1 h2 h3]
        exact ⟨[], (List.append_nil _).symm, by simp⟩
      · rcases h4 : acc.db.features.find? (featureMatch cid env.project_id)
          with _ | ex
        · rw [processFeature_create h1 h2 h3 h4]
          dsimp only
          obtain ⟨t, ht, ha⟩ := foldl_processPoint_pointIds env tz
            acc.db.next_feature_id dat.points
            { acc.db with
              features := acc.db.features ++
                [newFeatureRow env cid dat (storeTimezone dat.attributes tz)
                  acc.db.next_feature_id],
              next_feature_id := acc.db.next_feature_id + 1 }
          exact ⟨t, ht, ha⟩
        · rw [processFeature_existing h1 h2 h3 h4]
          dsimp only
          obtain ⟨t, ht, ha⟩ := foldl_processPoint_pointIds env tz ex.id
            dat.points (resolveExisting env cid dat
              (storeTimezone dat.attributes tz) ex fd.lastModified acc.db)
          rw [(resolveExisting_frame env cid dat
            (storeTimezone dat.attributes tz) ex fd.lastModified acc.db).1] at ht
          exact ⟨t, ht, ha⟩

theorem foldl_processFeature_pointIds (env : SyncEnv) (tz : String) :
    ∀ (fs : List FeatureChange) (acc : BatchAcc),
    ∃ t, ((fs.foldl (processFeature env tz) acc).db.points.map pointId) =
        acc.db.points.map pointId ++ t ∧ ∀ x ∈ t, x.2.2.2 = true := by
  intro fs
  induction fs with
  | nil => intro acc; exact ⟨[], (List.append_nil _).symm, by simp⟩
  | cons fd fs ih =>
    intro acc
    obtain ⟨t1, h1, ha1⟩ := processFeature_pointIds env tz acc fd
    obtain ⟨t2, h2, ha2⟩ := ih (processFeature env tz acc fd)
    refine ⟨t1 ++ t2, ?_, ?_⟩
    · rw [List.foldl_cons, h2, h1, List.append_assoc]
    · intro x hx
      rcases List.mem_append.mp hx with h | h
      · exact ha1 x h
      · exact ha2 x h

/-- C2, as the code actually behaves: sync never deletes a point row and
never deactivates one either.  The identity projection (primary key, upsert
key, active flag) of the point table after any sync request is the
before-table's projection extended only with fresh active rows: a
geometry-bearing update overwrites the feature's matching point rows in
place — previously active points stay active — and appends rows only for
new point client ids. -/
theorem c2_points_append_only (env : SyncEnv) (db : DB) (req : SyncRequest) :
    ∃ t, ((sync_project env db req).1.points.map pointId) =
        db.points.map pointId ++ t ∧ ∀ x ∈ t, x.2.2.2 = true := by
  cases hb : db.projects.contains env.project_id with
  | false =>
    rw [sync_project_404 hb]
    exact ⟨[], (List.append_nil _).symm, by simp⟩
  | true =>
    rw [sync_project_200 hb]
    obtain ⟨t, ht, ha⟩ := foldl_processFeature_pointIds env req.timezone
      req.features { db := db, processed := [], failed := [] }
    exact ⟨t, ht, ha⟩

/-! ### Claim C10: point upsert keyed on (client_id, feature_id) -/

theorem processPoint_unique (env : SyncEnv) (tz : String) (fid : Nat) (db : DB)
    (pd : PointPayload) (h : pointsUnique db.points) :
    pointsUnique (processPoint env tz fid db pd).points := by
  rcases h1 : truthyStr pd.client_id with _ | pcid
  · rwa [processPoint_skip h1]
  · rcases h2 : db.points.find? (pointMatch pcid fid) with _ | q
    · rw [processPoint_insert h1 h2]
      unfold pointsUnique at *
      dsimp only
      rw [List.map_append, List.nodup_append]
      refine ⟨h, List.nodup_singleton _, ?_⟩
      intro a ha hb
      rcases List.mem_singleton.mp hb with rfl
      rcases List.mem_map.mp ha with ⟨q0, hq0, hkey⟩
      have h3 : q0.client_id = pcid := congrArg Prod.fst hkey
      have h4 : q0.feature_id = fid := congrArg Prod.snd hkey
      have h5 := List.find?_eq_none.mp h2 q0 hq0
      apply h5
      unfold pointMatch
      simp [h3, h4]
    · rw [processPoint_update h1 h2]
      unfold pointsUnique at *
      dsimp only
      have hmap := updateFirst_map_key (k := pointKey)
        (p := pointMatch pcid fid)
        (g := updatePointRow env (parseCoords pd.coords) pd
          (storeTimezone pd.attributes tz)) (fun y => rfl) db.points
      rwa [hmap]

theorem foldl_processPoint_unique (env : SyncEnv) (tz : String) (fid : Nat) :
    ∀ (pds : List PointPayload) (db : DB), pointsUnique db.points →
      pointsUnique ((pds.foldl (processPoint env tz fid) db)).points := by
  intro pds
  induction pds with
  | nil => intro db h; exact h
  | cons pd pds ih =>
    intro db h
    rw [List.foldl_cons]
    exact ih _ (processPoint_unique env tz fid db pd h)

theorem processFeature_unique (env : SyncEnv) (tz : String) (acc : BatchAcc)
    (fd : FeatureChange) (h : pointsUnique acc.db.points) :
    pointsUnique (processFeature env tz acc fd).db.points := by
  rcases h1 : truthyStr fd.clientId with _ | cid
  · rwa [processFeature_skip h1]
  · cases h2 : fd.deleted with
    | true =>
      rcases h3 : acc.db.features.find? (featureMatch cid env.project_id)
        with _ | ex
      · rwa [processFeature_delete_missing h1 h2 h3]
      · rw [processFeature_delete_found h1 h2 h3]; exact h
    | false =>
      rcases h3 : fd.data with _ | dat
      · rw [processFeature_invalid_data h1 h2 h3]; exact h
      · rcases h4 : acc.db.features.find? (featureMatch cid env.project_id)
          with _ | ex
        · rw [processFeature_create h1 h2 h3 h4]
          dsimp only
          exact foldl_processPoint_unique env tz acc.db.next_feature_id
            dat.points _ h
        · rw [processFeature_existing h1 h2 h3 h4]
          dsimp only
          apply foldl_processPoint_unique env tz ex.id dat.points
          have h5 := (resolveExisting_frame env cid dat
            (storeTimezone dat.attributes tz) ex fd.lastModified acc.db).1
          unfold pointsUnique
          rw [h5]
          exact h

theorem foldl_processFeature_unique (env : SyncEnv) (tz : String) :
    ∀ (fs : List FeatureChange) (acc : BatchAcc), pointsUnique acc.db.points →
      pointsUnique ((fs.foldl (processFeature env tz) acc)).db.points := by
  intro fs
  induction fs with
  | nil => intro acc h; exact h
  | cons fd fs ih =>
    intro acc h
    rw [List.foldl_cons]
    exact ih _ (processFeature_unique env tz acc fd h)

/-- C10: the sync upserts points keyed on `(client_id, feature_id)`: a
payload whose `client_id` is falsy mutates nothing; when a stored point
with that client id exists under the feature, that row is overwritten in
place (coords, fcode, attributes, audit pair) and the table's length is
unchanged — no insert; when none exists, exactly one fresh active row is
appended.  Consequently a sync request never creates two point rows with
the same `(client_id, feature_id)` key. -/
theorem c10_point_upsert :
    (∀ (env : SyncEnv) (tz : String) (fid : Nat) (db : DB) (pd : PointPayload),
      truthyStr pd.client_id = none → processPoint env tz fid db pd = db) ∧
    (∀ (env : SyncEnv) (tz : String) (fid : Nat) (db : DB) (pd : PointPayload)
        (pcid : String) (q : CollectedPoint),
      truthyStr pd.client_id = some pcid →
      db.points.find? (pointMatch pcid fid) = some q →
      processPoint env tz fid db pd =
        { db with points := updateFirst (pointMatch pcid fid)
                              (updatePointRow env (parseCoords pd.coords) pd
                                (storeTimezone pd.attributes tz)) db.points } ∧
      (processPoint env tz fid db pd).points.length = db.points.length) ∧
    (∀ (env : SyncEnv) (tz : String) (fid : Nat) (db : DB) (pd : PointPayload)
        (pcid : String),
      truthyStr pd.client_id = some pcid →
      db.points.find? (pointMatch pcid fid) = none →
      processPoint env tz fid db pd =
        { db with
          points := db.points ++
            [newPointRow env fid db.next_point_id pcid (parseCoords pd.coords)
              pd (storeTimezone pd.attributes tz)],
          next_point_id := db.next_point_id + 1 }) ∧
    (∀ (env : SyncEnv) (db : DB) (req : SyncRequest),
      pointsUnique db.points → pointsUnique (sync_project env db req).1.points) := by
  refine ⟨fun env tz fid db pd h => processPoint_skip h,
    fun env tz fid db pd pcid q h1 h2 => ⟨processPoint_update h1 h2, ?_⟩,
    fun env tz fid db pd pcid h1 h2 => processPoint_insert h1 h2, ?_⟩
  · rw [processPoint_update h1 h2]
    exact updateFirst_length db.points
  · intro env db req h
    cases hb : db.projects.contains env.project_id with
    | false => rwa [sync_project_404 hb]
    | true =>
      rw [sync_project_200 hb]
      exact foldl_processFeature_unique env req.timezone req.features _ h

/-- C10 witness at a concrete input: the stored table of `dbB` has unique
point keys, and pushing an update through sync preserves that. -/
theorem c10_witness :
    pointsUnique dbB.points ∧
    pointsUnique (sync_project envA dbB reqB).1.points :=
  ⟨by decide, c10_point_upsert.2.2.2 envA dbB reqB (by decide)⟩

/-! ### Claim C4 -/

/-- C4: a `deleted = true` payload with a truthy clientId deactivates the
matching record of the project unconditionally — no timestamp is consulted
(the statement quantifies over every `lastModified`), and the loop state
`acc` is arbitrary, covering mid-batch states produced by earlier
non-delete payloads for the same clientId — stamping the row's
`updated_at` with the request's server instant; when no record matches
(active or inactive rows both match), the delete is a no-op that mutates
nothing. -/
theorem c4_delete_unconditional (env : SyncEnv) (tz : String) (acc : BatchAcc)
    (fd : FeatureChange) (cid : String)
    (h1 : truthyStr fd.clientId = some cid) (h2 : fd.deleted = true) :
    (∀ ex, acc.db.features.find? (featureMatch cid env.project_id) = some ex →
      processFeature env tz acc fd =
        { acc with
          db := { acc.db with
                    features := updateFirst (featureMatch cid env.project_id)
                      (deactivateRow env) acc.db.features },
          processed := acc.processed ++ [cid] } ∧
      ∀ f, (deactivateRow env f).is_active = false ∧
        (deactivateRow env f).updated_at = env.server_time) ∧
    (acc.db.features.find? (featureMatch cid env.project_id) = none →
      processFeature env tz acc fd = acc) := by
  constructor
  · intro ex h3
    exact ⟨processFeature_delete_found h1 h2 h3, fun f => ⟨rfl, rfl⟩⟩
  · intro h3
    exact processFeature_delete_missing h1 h2 h3

/-- C4 witness at a concrete input: deleting `a1` over `dbB` deactivates
its row in place. -/
theorem c4_witness :
    dbB.features.find? (featureMatch "a1" envA.project_id) = some featB ∧
    processFeature envA "UTC" accB delA =
      { accB with
        db := { dbB with
                  features := updateFirst (featureMatch "a1" envA.project_id)
                    (deactivateRow envA) dbB.features },
        processed := accB.processed ++ ["a1"] } := by
  refine ⟨by decide, ?_⟩
  exact ((c4_delete_unconditional envA "UTC" accB delA "a1" (by decide)
    (by decide)).1 featB (by decide)).1

/-! ### Claim C3 (amended) -/

/-- C3, as the code actually behaves (last-writer-wins on the feature row
only): for an incoming non-deleted payload matching an existing record, if
the parsed `lastModified` is strictly greater than the record's
`updated_at`, the row is overwritten from the payload; if it is less than
or equal (ties favour the server) or unparseable, the feature row — and
the whole feature table — is left unchanged and the clientId is still
reported as processed, not as an error.  In BOTH cases, however, the
payload's points are still upserted under the existing feature: the stored
points are NOT left unchanged on a skip. -/
theorem c3_last_writer_wins (env : SyncEnv) (tz : String) (acc : BatchAcc)
    (fd : FeatureChange) (cid : String) (dat : FeatureData)
    (ex : CollectedFeature)
    (h1 : truthyStr fd.clientId = some cid) (h2 : fd.deleted = false)
    (h3 : fd.data = some dat)
    (h4 : acc.db.features.find? (featureMatch cid env.project_id) = some ex) :
    (∀ cm, parse_iso_datetime fd.lastModified = some cm → ex.updated_at < cm →
      processFeature env tz acc fd =
        { acc with
          db := dat.points.foldl (processPoint env tz ex.id)
                  { acc.db with
                    features := updateFirst (featureMatch cid env.project_id)
                      (overwriteRow env dat (storeTimezone dat.attributes tz))
                      acc.db.features },
          processed := acc.processed ++ [cid] }) ∧
    ((parse_iso_datetime fd.lastModified = none ∨
      ∃ cm, parse_iso_datetime fd.lastModified = some cm ∧
        cm ≤ ex.updated_at) →
      processFeature env tz acc fd =
        { acc with
          db := dat.points.foldl (processPoint env tz ex.id) acc.db,
          processed := acc.processed ++ [cid] }) := by
  constructor
  · intro cm hcm hlt
    rw [processFeature_existing h1 h2 h3 h4, resolveExisting_newer hcm hlt]
  · intro hst
    rw [processFeature_existing h1 h2 h3 h4, resolveExisting_stale hst]

/-- C3 witness at a concrete input: the stale update `changeC`
(`lastModified = 5 ≤ 10`) leaves the feature table of `dbB` untouched but
still folds the point payloads into the store. -/
theorem c3_witness :
    dbB.features.find? (featureMatch "a1" envA.project_id) = some featB ∧
    processFeature envA "UTC" accB changeC =
      { accB with
        db := dataA.points.foldl (processPoint envA "UTC" featB.id) dbB,
        processed := accB.processed ++ ["a1"] } := by
  refine ⟨by decide, ?_⟩
  exact (c3_last_writer_wins envA "UTC" accB changeC "a1" dataA featB
    (by decide) (by decide) (by decide) (by decide)).2
    (Or.inr ⟨5, rfl, by decide⟩)

/-! ### Claim C6 (amended) -/

/-- C6, as the code actually behaves: a per-feature validation failure does
not abort the batch, but only a feature missing its `data` object has its
clientId recorded in `failed`; a feature missing `clientId` is skipped
silently and recorded nowhere.  Every other valid feature is still
processed, the batch commits, and the response is 200; in the batch-of-3
scenario with one entry missing `clientId`, `processed` has the 2 valid
entries and `failed` is empty. -/
theorem c6_validation_isolation :
    (∀ (env : SyncEnv) (tz : String) (acc : BatchAcc) (fd : FeatureChange),
      truthyStr fd.clientId = none → processFeature env tz acc fd = acc) ∧
    (∀ (env : SyncEnv) (tz : String) (acc : BatchAcc) (fd : FeatureChange)
        (cid : String),
      truthyStr fd.clientId = some cid → fd.deleted = false → fd.data = none →
      processFeature env tz acc fd =
        { acc with failed := acc.failed ++ [cid] }) ∧
    (∀ (env : SyncEnv) (db : DB) (req : SyncRequest),
      db.projects.contains env.project_id = true →
      (sync_project env db req).2.status = 200) ∧
    ((sync_project envA dbEmpty reqE).2.processed = ["b1", "b2"] ∧
     (sync_project envA dbEmpty reqE).2.failed = [] ∧
     (sync_project envA dbEmpty reqE).2.status = 200) := by
  refine ⟨fun env tz acc fd h => processFeature_skip h,
    fun env tz acc fd cid h1 h2 h3 => processFeature_invalid_data h1 h2 h3,
    ?_, by decide⟩
  intro env db req h
  rw [sync_project_200 h]

/-- C6 witness at a concrete input. -/
theorem c6_witness :
    processFeature envA "UTC" accEmpty
      { clientId := none, deleted := false, lastModified := .absent,
        data := some dataE } = accEmpty ∧
    (sync_project envA dbEmpty reqE).2.status = 200 :=
  ⟨c6_validation_isolation.1 envA "UTC" accEmpty _ rfl,
   c6_validation_isolation.2.2.1 envA dbEmpty reqE (by decide)⟩

/-! ### Claim C9 (code bug) -/

/-- C9 is the documented intent, but the code has a slip: timestamp
parsing CAN raise.  A string that `isoparse` accepts but whose
`astimezone(timezone.utc)` overflows the supported datetime range (e.g.
"0001-01-01T00:00:00+01:00") raises `OverflowError`, which the
`except (ValueError, TypeError)` clause does not catch; the exception
propagates and the sync request aborts with 500 — so a malformed client
timestamp CAN abort a sync request.  This theorem evaluates the embedding
on that failing input class (the parser raises instead of yielding `none`,
and the endpoint answers 500 with nothing processed) and records that on
every non-raising input the claimed degrade-to-default behaviour does
hold: absent, non-string and unparseable values parse to `none`, and the
cursor then falls back to epoch zero. -/
theorem c9_parse_overflow_aborts :
    (∀ s, parse_iso_datetime_run (.overflowString s) =
      .error "date value out of range") ∧
    (∀ v, parse_iso_datetime_run (.regular v) =
      .ok (parse_iso_datetime v)) ∧
    (parse_iso_datetime .absent = none) ∧
    (parse_iso_datetime .notString = none) ∧
    (∀ s, parse_iso_datetime (.invalidString s) = none) ∧
    (∀ req : SyncRequest, parse_iso_datetime req.lastSyncTimestamp = none →
      last_sync_of req = 0) ∧
    (∀ (env : SyncEnv) (db : DB) (fs : List FeatureChange) (tz : String)
        (s : String),
      db.projects.contains env.project_id = true →
      sync_project_cursor env db fs tz (.overflowString s) =
        (db,
          { status := 500,
            success := false,
            message := some "Server error: date value out of range",
            processed := [],
            failed := [],
            changes := [],
            serverTimestamp := none })) := by
  refine ⟨fun s => rfl, fun v => rfl, rfl, rfl, fun s => rfl, ?_, ?_⟩
  · intro req h
    unfold last_sync_of
    rw [h]
    rfl
  · intro env db fs tz s h
    simp only [sync_project_cursor, h, if_true]

/-- C9 witness at a concrete input: the cursor string
"0001-01-01T00:00:00+01:00" aborts the sync over an existing project with
a 500, while the merely unparseable cursor of `reqBad` degrades to the
epoch default. -/
theorem c9_overflow_witness :
    dbEmpty.projects.contains envA.project_id = true ∧
    last_sync_of reqBad = 0 ∧
    sync_project_cursor envA dbEmpty [changeA] "UTC"
        (.overflowString "0001-01-01T00:00:00+01:00") =
      (dbEmpty,
        { status := 500,
          success := false,
          message := some "Server error: date value out of range",
          processed := [],
          failed := [],
          changes := [],
          serverTimestamp := none }) :=
  ⟨by decide,
   c9_parse_overflow_aborts.2.2.2.2.2.1 reqBad rfl,
   c9_parse_overflow_aborts.2.2.2.2.2.2 envA dbEmpty [changeA] "UTC"
     "0001-01-01T00:00:00+01:00" (by decide)⟩

/-! ### Claim C5 (amended) -/

theorem processFeature_lists_nondelete (env : SyncEnv) (tz : String)
    (acc : BatchAcc) (fd : FeatureChange) (h : fd.deleted = false) :
    (processFeature env tz acc fd).processed = acc.processed ++ procOf fd ∧
    (processFeature env tz acc fd).failed = acc.failed ++ failOf fd := by
  rcases h1 : truthyStr fd.clientId with _ | cid
  · rw [processFeature_skip h1]
    simp [procOf, failOf, h1]
  · rcases h2 : fd.data with _ | dat
    · rw [processFeature_invalid_data h1 h h2]
      simp [procOf, failOf, h1, h2]
    · rcases h4 : acc.db.features.find? (featureMatch cid env.project_id)
        with _ | ex
      · rw [processFeature_create h1 h h2 h4]
        simp [procOf, failOf, h1, h2]
      · rw [processFeature_existing h1 h h2 h4]
        simp [procOf, failOf, h1, h2]

theorem foldl_lists_nondelete (env : SyncEnv) (tz : String) :
    ∀ (fs : List FeatureChange) (acc : BatchAcc),
    (∀ fd ∈ fs, fd.deleted = false) →
    (fs.foldl (processFeature env tz) acc).processed =
      acc.processed ++ procList fs ∧
    (fs.foldl (processFeature env tz) acc).failed =
      acc.failed ++ failList fs := by
  intro fs
  induction fs with
  | nil => intro acc h; simp [procList, failList]
  | cons fd fs ih =>
    intro acc h
    have hfd : fd.deleted = false := h fd (List.mem_cons_self fd fs)
    have hrest : ∀ x ∈ fs, x.deleted = false :=
      fun x hx => h x (List.mem_cons_of_mem fd hx)
    obtain ⟨hp, hf⟩ := processFeature_lists_nondelete env tz acc fd hfd
    obtain ⟨hp2, hf2⟩ := ih (processFeature env tz acc fd) hrest
    rw [List.foldl_cons]
    constructor
    · rw [hp2, hp, procList, List.append_assoc]
    · rw [hf2, hf, failList, List.append_assoc]

theorem applyBatch_lists_nondelete (env : SyncEnv) (tz : String) (db : DB)
    (fs : List FeatureChange) (h : ∀ fd ∈ fs, fd.deleted = false) :
    (applyBatch env tz db fs).processed = procList fs ∧
    (applyBatch env tz db fs).failed = failList fs := by
  obtain ⟨hp, hf⟩ := foldl_lists_nondelete env tz fs
    { db := db, processed := [], failed := [] } h
  exact ⟨hp.trans (List.nil_append _), hf.trans (List.nil_append _)⟩

/-- C5, as the code actually behaves: resubmitting an identical delete-free
batch (same features, same cursor) yields `processed` and `failed` lists
equal to the first submission's — even at a different server instant and
over whatever state the first run produced, since for non-deleted entries
these lists depend only on the payloads.  Full state idempotence holds for
the spec's create-with-point scenario when resubmitted at the same server
instant: the second run reproduces exactly the first run's state and
response, with exactly one point row — no duplicates.  (Batches containing
`deleted = true` entries are not idempotent, and a later server instant
re-stamps the audit timestamps of re-pushed point rows.) -/
theorem c5_resubmission (env1 env2 : SyncEnv) (db : DB) (req : SyncRequest)
    (hpid : env2.project_id = env1.project_id)
    (h : ∀ fd ∈ req.features, fd.deleted = false) :
    ((sync_project env2 (sync_project env1 db req).1 req).2.processed =
        (sync_project env1 db req).2.processed ∧
      (sync_project env2 (sync_project env1 db req).1 req).2.failed =
        (sync_project env1 db req).2.failed) ∧
    (sync_project envA (sync_project envA dbEmpty reqA).1 reqA =
        sync_project envA dbEmpty reqA ∧
      (sync_project envA (sync_project envA dbEmpty reqA).1
          reqA).1.points.length = 1) := by
  constructor
  · cases hb : db.projects.contains env1.project_id with
    | false =>
      have hb2 : db.projects.contains env2.project_id = false := by
        rw [hpid]; exact hb
      rw [sync_project_404 hb]
      dsimp only
      rw [sync_project_404 hb2]
      exact ⟨rfl, rfl⟩
    | true =>
      have hb2 : (applyBatch env1 req.timezone db
          req.features).db.projects.contains env2.project_id = true := by
        rw [applyBatch_projects, hpid]; exact hb
      rw [sync_project_200 hb]
      dsimp only
      rw [sync_project_200 hb2]
      dsimp only
      obtain ⟨hp1, hf1⟩ :=
        applyBatch_lists_nondelete env1 req.timezone db req.features h
      obtain ⟨hp2, hf2⟩ := applyBatch_lists_nondelete env2 req.timezone
        (applyBatch env1 req.timezone db req.features).db req.features h
      exact ⟨hp2.trans hp1.symm, hf2.trans hf1.symm⟩
  · exact ⟨by decide, by decide⟩

/-- C5 witness at a concrete input. -/
theorem c5_witness :
    (∀ fd ∈ reqA.features, fd.deleted = false) ∧
    (sync_project envA (sync_project envA dbEmpty reqA).1 reqA).2.processed =
      (sync_project envA dbEmpty reqA).2.processed :=
  ⟨by decide, ((c5_resubmission envA envA dbEmpty reqA rfl (by decide)).1).1⟩

/-- C7 at a concrete input: a failure before the first loop iteration over
`dbB` leaves the committed table exactly `dbB` and answers 500. -/
theorem c7_witness :
    (sync_project_tx envA { committed := dbB, pending := dbB } reqB (some 0)
      "boom").1.committed = dbB ∧
    (sync_project_tx envA { committed := dbB, pending := dbB } reqB (some 0)
      "boom").2.status = 500 :=
  ⟨(c7_rollback_on_failure envA { committed := dbB, pending := dbB } reqB 0
      "boom").1,
   (c7_rollback_on_failure envA { committed := dbB, pending := dbB } reqB 0
      "boom").2.2.1⟩

/-- C2's amended statement at a concrete input: the update through sync
over `dbB` extends the point-identity projection by nothing but active
rows. -/
theorem c2_witness :
    ∃ t, ((sync_project envA dbB reqB).1.points.map pointId) =
        dbB.points.map pointId ++ t ∧ ∀ x ∈ t, x.2.2.2 = true :=
  c2_points_append_only envA dbB reqB

end CapturePoint
